import Mathlib

/-!
Shallow embedding of `src/main.py` (Bepa network monitor).

The program periodically samples the host's established network connections,
classifies each remote address against a target `RangeSet` and an exclude
`RangeSet` (parsed from comma-separated CIDR lists), fires a desktop alert the
first time a `(remote ip, remote port)` endpoint is seen inside a target range
and outside every exclude range, and at the end of every cycle intersects its
alert memory with the set of endpoints of currently established connections.

Modelling notes:
* IP addresses are modelled as `Nat` values below `2^32`; the IPv4 subset of
  Python's `ipaddress` module is embedded (dotted-quad addresses, decimal
  prefix lengths, strict host-bit checking as in `ipaddress.ip_network`).
  IPv6 and netmask/hostmask notations are outside the modelled subset.
* String splitting/stripping is implemented structurally over `List Char`
  (mirroring Python's `str.split` / `str.strip`) so all definitions reduce
  in the kernel.
* `alerted_connections` is a `Finset String` of `f"{ip}:{port}"` keys,
  exactly as in the source.
* The notification sink is a collaborator that may fail; `send_notification`
  swallows any failure (the source wraps the subprocess call in
  `try/except Exception`).
* The monitoring loop's `try` block wraps the entire `while True` loop, so a
  sampler exception terminates the loop; `runLoop` reflects this.
-/

namespace Bepa

/-- `psutil.CONN_ESTABLISHED` -/
def CONN_ESTABLISHED : String := "ESTABLISHED"

/-- Split a character list at every occurrence of `sep`, Python
`str.split(sep)` style: the empty input yields one empty group. -/
def splitChar (sep : Char) : List Char → List (List Char)
  | [] => [[]]
  | c :: rest =>
    match splitChar sep rest with
    | [] => if c = sep then [[], []] else [[c]]
    | grp :: gs => if c = sep then [] :: grp :: gs else (c :: grp) :: gs

/-- ASCII whitespace recognised by Python's `str.strip()` (the subset that can
occur in the inputs we model). -/
def isSpaceChar (c : Char) : Bool :=
  c = ' ' || c = '\t' || c = '\n' || c = '\r'

/-- Python `str.strip()`: drop leading and trailing whitespace. -/
def stripChars (l : List Char) : List Char :=
  ((l.dropWhile isSpaceChar).reverse.dropWhile isSpaceChar).reverse

/-- Numeric value of a list of decimal digit characters. -/
def digitsVal (l : List Char) : Nat :=
  l.foldl (fun acc c => acc * 10 + (c.toNat - 48)) 0

/-- `ipaddress._parse_octet`: 1–3 decimal digits, no leading zero
(unless the octet is exactly "0"), value at most 255. -/
def parseOctet (l : List Char) : Option Nat :=
  if l = [] then none
  else if ¬ l.all Char.isDigit then none
  else if l.length > 3 then none
  else if l.length > 1 ∧ l.headI = '0' then none
  else
    let v := digitsVal l
    if v ≤ 255 then some v else none

/-- `ipaddress.IPv4Address._ip_int_from_string`: dotted quad, exactly four
octets, packed big-endian into a `Nat` below `2^32`. -/
def parseIPv4Address (s : String) : Option Nat :=
  match (splitChar '.' s.data).mapM parseOctet with
  | some [a, b, c, d] => some (((a * 256 + b) * 256 + c) * 256 + d)
  | _ => none

/-- `ipaddress._prefix_from_prefix_string`: non-empty decimal digit string
whose value is at most 32. -/
def parsePrefixLen (l : List Char) : Option Nat :=
  if l = [] then none
  else if ¬ l.all Char.isDigit then none
  else
    let v := digitsVal l
    if v ≤ 32 then some v else none

/-- An IPv4 CIDR block: network address (host bits zero) plus prefix length,
as produced by `ipaddress.ip_network`. -/
structure IPv4Network where
  netAddr : Nat
  prefixLen : Nat
deriving DecidableEq, Repr

/-- `ipaddress.ip_network(text)` with the default `strict=True`, restricted to
the IPv4 CIDR subset: `"a.b.c.d"` (prefix 32) or `"a.b.c.d/p"`; parsing fails
when the address or prefix is malformed or when host bits are set. -/
def ip_network (s : String) : Option IPv4Network :=
  match splitChar '/' s.data with
  | [addr] =>
    match parseIPv4Address ⟨addr⟩ with
    | some ip => some ⟨ip, 32⟩
    | none => none
  | [addr, pfx] =>
    match parseIPv4Address ⟨addr⟩, parsePrefixLen pfx with
    | some ip, some p =>
        if ip % 2 ^ (32 - p) = 0 then some ⟨ip, p⟩ else none
    | _, _ => none
  | _ => none

/-- `ip in network` for a parsed IPv4 network: the address agrees with the
network address on the upper `prefixLen` bits. -/
def ipInNetwork (ip : Nat) (n : IPv4Network) : Bool :=
  ip / 2 ^ (32 - n.prefixLen) = n.netAddr / 2 ^ (32 - n.prefixLen)

/-- One comma-separated entry of a range list, as handled by the loops in
`NetworkMonitor.__init__`: strip it, skip it when empty, otherwise try to
parse it and skip it (with a warning) on failure. -/
def parseEntry (raw : String) : Option IPv4Network :=
  let t : String := ⟨stripChars raw.data⟩
  if t.data = [] then none else ip_network t

/-- The parse loops of `NetworkMonitor.__init__` applied to the already
comma-split entries: each entry parsed independently, failures skipped. -/
def parseEntries (entries : List String) : List IPv4Network :=
  entries.filterMap parseEntry

/-- `NetworkMonitor.__init__`'s handling of one comma-separated CIDR-list
string: split on commas, then parse each entry independently. -/
def parseRangeList (s : String) : List IPv4Network :=
  parseEntries ((splitChar ',' s.data).map fun l => ⟨l⟩)

/-- `NetworkMonitor.is_target_ip`: parse the address (returning
`(False, None)` on a parse error), then scan the target ranges in
configuration order, returning the first match.  The source returns
`str(target_range)` as the second component; the network itself is returned
here, which carries the same information for distinct parsed networks. -/
def is_target_ip (target_ranges : List IPv4Network) (ip_str : String) :
    Bool × Option IPv4Network :=
  match parseIPv4Address ip_str with
  | none => (false, none)
  | some ip =>
    match target_ranges.find? (fun r => ipInNetwork ip r) with
    | some r => (true, some r)
    | none => (false, none)

/-- `NetworkMonitor.is_excluded_ip`: same shape as `is_target_ip`, over the
exclude ranges. -/
def is_excluded_ip (exclude_ranges : List IPv4Network) (ip_str : String) :
    Bool × Option IPv4Network :=
  match parseIPv4Address ip_str with
  | none => (false, none)
  | some ip =>
    match exclude_ranges.find? (fun r => ipInNetwork ip r) with
    | some r => (true, some r)
    | none => (false, none)

/-- The spec's `RangeMatcher.classify` decision, read off lines 118–124 of
`monitor_connections`: exclusion first (`continue`), then targeting (with the
matched range kept for diagnostics), otherwise ignored. -/
inductive Classification where
  | Excluded : Classification
  | Targeted : Option IPv4Network → Classification
  | Ignored : Classification
deriving DecidableEq, Repr

/-- Classification of a remote address exactly as the loop body performs it:
`is_excluded_ip` first, then `is_target_ip`. -/
def classify (target exclude : List IPv4Network) (ip_str : String) :
    Classification :=
  if (is_excluded_ip exclude ip_str).1 then Classification.Excluded
  else if (is_target_ip target ip_str).1 then
    Classification.Targeted (is_target_ip target ip_str).2
  else Classification.Ignored

/-- Whether a classification is `Targeted` (with any matched range). -/
def isTargeted : Classification → Bool
  | Classification.Targeted _ => true
  | _ => false

/-- One endpoint of a connection as reported by `psutil` (`addr.ip`,
`addr.port`). -/
structure Addr where
  ip : String
  port : Nat
deriving DecidableEq, Repr

/-- One `psutil` connection record: status string, optional remote and local
addresses, optional owning process id. -/
structure Conn where
  status : String
  raddr : Option Addr
  laddr : Option Addr
  pid : Option Nat
deriving DecidableEq, Repr

/-- The alert event printed and dispatched by `monitor_connections` when a new
targeted endpoint is found (remote endpoint, local port, matched target range,
owning pid). -/
structure Alert where
  remoteIp : String
  remotePort : Nat
  localPort : Nat
  matchedRange : Option IPv4Network
  pid : Option Nat
deriving DecidableEq, Repr

/-- The dedup key `conn_id = f"{remote_ip}:{remote_port}"`. -/
def mkConnId (ip : String) (port : Nat) : String :=
  ip ++ ":" ++ toString port

/-- The key of an alert event. -/
def alertKey (a : Alert) : String := mkConnId a.remoteIp a.remotePort

/-- A notification sink outcome: the collaborator either succeeds or raises.
`NetworkMonitor.send_notification` wraps the call in `try/except Exception`,
so either way it returns normally with no value. -/
def send_notification (sinkResult : Except String Unit) : Unit :=
  match sinkResult with
  | Except.ok _ => ()
  | Except.error _ => ()

/-- Per-connection body of the `for conn in connections` loop
(`monitor_connections` lines 110–143), acting on the state
`(alerted_connections, alerts emitted so far this cycle)`.
`sink` gives the notification collaborator's outcome for each dispatched
`conn_id`. -/
def processConn (target exclude : List IPv4Network)
    (sink : String → Except String Unit)
    (st : Finset String × List Alert) (c : Conn) :
    Finset String × List Alert :=
  match c.raddr, c.laddr with
  | some r, some l =>
    if c.status = CONN_ESTABLISHED then
      if (is_excluded_ip exclude r.ip).1 then st
      else
        if (is_target_ip target r.ip).1 then
          let conn_id := mkConnId r.ip r.port
          if conn_id ∈ st.1 then st
          else
            let _ := send_notification (sink conn_id)
            (insert conn_id st.1,
             st.2 ++ [⟨r.ip, r.port, l.port, (is_target_ip target r.ip).2, c.pid⟩])
        else st
    else st
  | _, _ => st

/-- The set comprehension of lines 145–147: `conn_id` keys of every connection
that has a remote address and is established (local address not required). -/
def activeSet (conns : List Conn) : Finset String :=
  (conns.filterMap fun c =>
    match c.raddr with
    | some r =>
      if c.status = CONN_ESTABLISHED then some (mkConnId r.ip r.port) else none
    | none => none).toFinset

/-- End-of-cycle reconciliation (line 148):
`self.alerted_connections &= active_connections`. -/
def reconcile (mem observed : Finset String) : Finset String :=
  mem ∩ observed

/-- One full cycle of the `while True` loop: process every connection in
order, then reconcile the alert memory against the active set.  Returns the
new memory and the alerts emitted this cycle. -/
def runCycle (target exclude : List IPv4Network)
    (sink : String → Except String Unit)
    (mem : Finset String) (conns : List Conn) :
    Finset String × List Alert :=
  let st := conns.foldl (processConn target exclude sink) (mem, [])
  (reconcile st.1 (activeSet conns), st.2)

/-- The monitoring loop over a sequence of sampler outcomes.  The source's
`try` block wraps the entire `while True` loop, so the first sampler failure
propagates out of the loop, is caught by `except Exception` (logged), and the
loop terminates; no later cycle runs. -/
def runLoop (target exclude : List IPv4Network)
    (sink : String → Except String Unit) :
    Finset String → List (Except String (List Conn)) →
    Finset String × List (List Alert)
  | mem, [] => (mem, [])
  | mem, Except.error _ :: _ => (mem, [])
  | mem, Except.ok conns :: rest =>
    let r := runCycle target exclude sink mem conns
    let f := runLoop target exclude sink r.1 rest
    (f.1, r.2 :: f.2)

/-- Alert memory at the start of cycle `n` (0-based), starting from `mem` and
running the successive cycles of `cs`. -/
def memBefore (target exclude : List IPv4Network)
    (sink : String → Except String Unit) :
    Finset String → List (List Conn) → Nat → Finset String
  | mem, _, 0 => mem
  | mem, [], _ + 1 => mem
  | mem, c :: rest, n + 1 =>
    memBefore target exclude sink (runCycle target exclude sink mem c).1 rest n

/-- Alerts emitted during cycle `n` (0-based); empty past the end. -/
def alertsAt (target exclude : List IPv4Network)
    (sink : String → Except String Unit) :
    Finset String → List (List Conn) → Nat → List Alert
  | _, [], _ => []
  | mem, c :: _, 0 => (runCycle target exclude sink mem c).2
  | mem, c :: rest, n + 1 =>
    alertsAt target exclude sink (runCycle target exclude sink mem c).1 rest n

/-- The literal default of `TARGET_IP_RANGES` in `__init__` (line 14). -/
def DEFAULT_TARGET_RANGES : String := "10.10.0.0/8,172.16.0.0/12,192.168.0.0/16"

/-- The literal default of `EXCLUDE_IP_RANGES` in `__init__` (line 30). -/
def DEFAULT_EXCLUDE_RANGES : String := "192.168.1.1/32"

/-- `__init__`'s target-range setup (lines 14–27): parse the configured (or
default) list; if no valid range remains, `exit(1)`. -/
def initTargets (envTarget : Option String) : Except Nat (List IPv4Network) :=
  let ranges := parseRangeList (envTarget.getD DEFAULT_TARGET_RANGES)
  if ranges = [] then Except.error 1 else Except.ok ranges

/-- `__init__`'s exclude-range setup (lines 30–39): parse, never fatal. -/
def initExcludes (envExclude : Option String) : List IPv4Network :=
  parseRangeList (envExclude.getD DEFAULT_EXCLUDE_RANGES)

/-- `main()` start-up followed by the monitoring loop: when target parsing
exits with code 1, the loop never runs and the process exit code is returned;
otherwise the loop's outcome is returned. -/
def startMonitor (envTarget envExclude : Option String)
    (sink : String → Except String Unit)
    (cycles : List (Except String (List Conn))) :
    Except Nat (Finset String × List (List Alert)) :=
  match initTargets envTarget with
  | Except.error code => Except.error code
  | Except.ok target =>
    Except.ok (runLoop target (initExcludes envExclude) sink ∅ cycles)

/-! ### Concrete fixtures for the witnesses and counterexamples -/

/-- Target set of the spec's scenario: `10.0.0.0/8`. -/
def tgt10 : List IPv4Network := parseRangeList "10.0.0.0/8"

/-- Exclude set of the spec's scenario: `10.0.0.1/32`. -/
def exc10 : List IPv4Network := parseRangeList "10.0.0.1/32"

/-- Target set of the spec's second scenario: `192.168.0.0/16`. -/
def tgt192 : List IPv4Network := parseRangeList "192.168.0.0/16"

/-- A notification sink that always succeeds. -/
def okSink : String → Except String Unit := fun _ => Except.ok ()

/-- A notification sink that always raises. -/
def failSink : String → Except String Unit := fun _ => Except.error "notify-send failed"

/-- An established connection to `10.0.0.2:443`. -/
def connA : Conn := ⟨"ESTABLISHED", some ⟨"10.0.0.2", 443⟩, some ⟨"10.0.0.2", 50000⟩, some 42⟩

/-- An established connection to the excluded address `10.0.0.1:443`. -/
def connExcl : Conn := ⟨"ESTABLISHED", some ⟨"10.0.0.1", 443⟩, some ⟨"10.0.0.1", 50001⟩, none⟩

/-- An established connection to `192.168.1.5:22`. -/
def connB : Conn := ⟨"ESTABLISHED", some ⟨"192.168.1.5", 22⟩, some ⟨"192.168.1.5", 50100⟩, some 7⟩

/-- An established connection whose remote address string is not a valid IP. -/
def connBad : Conn := ⟨"ESTABLISHED", some ⟨"999.1.1.1", 80⟩, some ⟨"999.1.1.1", 50002⟩, none⟩

/-- The alert event produced for `connA` against `10.0.0.0/8`. -/
def alertA : Alert := ⟨"10.0.0.2", 443, 50000, some ⟨167772160, 8⟩, some 42⟩

/-- A dummy alert record for the invalid-address connection. -/
def alertBad : Alert := ⟨"999.1.1.1", 80, 50002, none, none⟩

/-! ### Helper lemmas about one loop-body step -/

/-- Characterisation of one `for conn in connections` step: either it leaves
the state untouched, or the connection is established with both addresses,
not excluded, targeted, its key is new, and the step inserts the key and
appends the alert event. -/
lemma step_cases (t e : List IPv4Network) (sink : String → Except String Unit)
    (st : Finset String × List Alert) (c : Conn) :
    processConn t e sink st c = st ∨
    ∃ r l, c.raddr = some r ∧ c.laddr = some l ∧ c.status = CONN_ESTABLISHED ∧
      (is_excluded_ip e r.ip).1 = false ∧ (is_target_ip t r.ip).1 = true ∧
      mkConnId r.ip r.port ∉ st.1 ∧
      processConn t e sink st c =
        (insert (mkConnId r.ip r.port) st.1,
         st.2 ++ [⟨r.ip, r.port, l.port, (is_target_ip t r.ip).2, c.pid⟩]) := by
  unfold processConn
  rcases hr : c.raddr with _ | r
  · exact Or.inl rfl
  rcases hl : c.laddr with _ | l
  · exact Or.inl rfl
  dsimp only
  split_ifs with hst hexc htgt hmem
  · exact Or.inl rfl
  · exact Or.inl rfl
  · exact Or.inr ⟨r, l, rfl, rfl, hst, by simpa using hexc, htgt, hmem, rfl⟩
  · exact Or.inl rfl
  · exact Or.inl rfl

/-- One step never removes a key from the alert memory. -/
lemma step_mem_mono (t e : List IPv4Network) (sink : String → Except String Unit)
    (st : Finset String × List Alert) (c : Conn) :
    st.1 ⊆ (processConn t e sink st c).1 := by
  rcases step_cases t e sink st c with h | ⟨r, l, _, _, _, _, _, _, h⟩
  · rw [h]
  · rw [h]; exact Finset.subset_insert _ _

/-- One step never drops an already-emitted alert. -/
lemma step_alerts_mono (t e : List IPv4Network) (sink : String → Except String Unit)
    (st : Finset String × List Alert) (c : Conn) (a : Alert)
    (ha : a ∈ st.2) : a ∈ (processConn t e sink st c).2 := by
  rcases step_cases t e sink st c with h | ⟨r, l, _, _, _, _, _, _, h⟩
  · rw [h]; exact ha
  · rw [h]; exact List.mem_append_left _ ha

/-- The connection-loop fold never removes a key from the alert memory. -/
lemma foldl_mem_mono (t e : List IPv4Network) (sink : String → Except String Unit) :
    ∀ (conns : List Conn) (st : Finset String × List Alert),
      st.1 ⊆ (conns.foldl (processConn t e sink) st).1
  | [], _ => Finset.Subset.refl _
  | c :: rest, st =>
    Finset.Subset.trans (step_mem_mono t e sink st c)
      (foldl_mem_mono t e sink rest (processConn t e sink st c))

/-- The connection-loop fold never drops an already-emitted alert. -/
lemma foldl_alerts_mono (t e : List IPv4Network) (sink : String → Except String Unit) :
    ∀ (conns : List Conn) (st : Finset String × List Alert) (a : Alert),
      a ∈ st.2 → a ∈ (conns.foldl (processConn t e sink) st).2
  | [], _, _, ha => ha
  | c :: rest, st, a, ha =>
    foldl_alerts_mono t e sink rest (processConn t e sink st c) a
      (step_alerts_mono t e sink st c a ha)

/-- Provenance of an alert emitted by the fold: it was already pending, or it
names a connection of the list that is established, has the alert's remote
endpoint, is not excluded, is targeted, and whose key was not in the memory
the fold started from. -/
lemma foldl_alert_src (t e : List IPv4Network) (sink : String → Except String Unit) :
    ∀ (conns : List Conn) (st : Finset String × List Alert) (a : Alert),
      a ∈ (conns.foldl (processConn t e sink) st).2 →
      a ∈ st.2 ∨
        (alertKey a ∉ st.1 ∧
         (is_excluded_ip e a.remoteIp).1 = false ∧
         (is_target_ip t a.remoteIp).1 = true ∧
         ∃ c ∈ conns, c.status = CONN_ESTABLISHED ∧
           c.raddr = some ⟨a.remoteIp, a.remotePort⟩) := by
  intro conns
  induction conns with
  | nil => intro st a ha; exact Or.inl ha
  | cons c rest ih =>
    intro st a ha
    rcases ih (processConn t e sink st c) a ha with hin | ⟨hk, hexc, htgt, c', hc', hrest⟩
    · rcases step_cases t e sink st c with h | ⟨r, l, hraddr, _, hst, hexc, htgt, hnew, h⟩
      · rw [h] at hin; exact Or.inl hin
      · rw [h] at hin
        rcases List.mem_append.mp hin with hin | hin
        · exact Or.inl hin
        · rcases List.mem_singleton.mp hin with rfl
          exact Or.inr ⟨hnew, hexc, htgt, c, List.mem_cons_self _ _, hst, hraddr⟩
    · refine Or.inr ⟨fun hmem => hk (step_mem_mono t e sink st c hmem), hexc, htgt,
        c', List.mem_cons_of_mem _ hc', hrest⟩

/-- Every alert emitted by the fold has its key in the resulting memory
(inserted at emission, never removed afterwards). -/
lemma foldl_alert_in_mem (t e : List IPv4Network) (sink : String → Except String Unit) :
    ∀ (conns : List Conn) (st : Finset String × List Alert) (a : Alert),
      a ∈ (conns.foldl (processConn t e sink) st).2 →
      a ∈ st.2 ∨ alertKey a ∈ (conns.foldl (processConn t e sink) st).1 := by
  intro conns
  induction conns with
  | nil => intro st a ha; exact Or.inl ha
  | cons c rest ih =>
    intro st a ha
    rcases ih (processConn t e sink st c) a ha with hin | hk
    · rcases step_cases t e sink st c with h | ⟨r, l, _, _, _, _, _, _, h⟩
      · rw [h] at hin; exact Or.inl hin
      · rw [h] at hin
        rcases List.mem_append.mp hin with hin | hin
        · exact Or.inl hin
        · rcases List.mem_singleton.mp hin with rfl
          refine Or.inr (foldl_mem_mono t e sink rest _ ?_)
          rw [h]
          exact Finset.mem_insert_self _ _
    · exact Or.inr hk

/-- Every key of the fold's resulting memory was already present or is the
key of an alert the fold emitted. -/
lemma foldl_mem_src (t e : List IPv4Network) (sink : String → Except String Unit) :
    ∀ (conns : List Conn) (st : Finset String × List Alert) (K : String),
      K ∈ (conns.foldl (processConn t e sink) st).1 →
      K ∈ st.1 ∨ ∃ a ∈ (conns.foldl (processConn t e sink) st).2, alertKey a = K := by
  intro conns
  induction conns with
  | nil => intro st K hK; exact Or.inl hK
  | cons c rest ih =>
    intro st K hK
    rcases ih (processConn t e sink st c) K hK with hin | ⟨a, ha, hk⟩
    · rcases step_cases t e sink st c with h | ⟨r, l, _, _, _, _, _, _, h⟩
      · rw [h] at hin; exact Or.inl hin
      · rw [h] at hin
        rcases Finset.mem_insert.mp hin with rfl | hin
        · refine Or.inr ⟨⟨r.ip, r.port, l.port, (is_target_ip t r.ip).2, c.pid⟩,
            foldl_alerts_mono t e sink rest _ _ ?_, rfl⟩
          rw [h]
          exact List.mem_append_right _ (List.mem_singleton_self _)
        · exact Or.inl hin
    · exact Or.inr ⟨a, ha, hk⟩

/-! ### Cycle-level lemmas -/

/-- Membership in the active set is exactly "some established connection of
the sample has this endpoint key". -/
lemma activeSet_mem_iff (conns : List Conn) (K : String) :
    K ∈ activeSet conns ↔
      ∃ c ∈ conns, c.status = CONN_ESTABLISHED ∧
        ∃ r, c.raddr = some r ∧ mkConnId r.ip r.port = K := by
  unfold activeSet
  rw [List.mem_toFinset, List.mem_filterMap]
  constructor
  · rintro ⟨c, hc, hf⟩
    rcases hr : c.raddr with _ | r
    · rw [hr] at hf; exact absurd hf (by simp)
    · rw [hr] at hf
      dsimp only at hf
      by_cases hst : c.status = CONN_ESTABLISHED
      · rw [if_pos hst] at hf
        exact ⟨c, hc, hst, r, hr, Option.some_injective _ hf⟩
      · rw [if_neg hst] at hf; exact absurd hf (by simp)
  · rintro ⟨c, hc, hst, r, hr, hk⟩
    refine ⟨c, hc, ?_⟩
    rw [hr]
    dsimp only
    rw [if_pos hst, hk]

/-- A key already in memory at the start of a cycle is never alerted during
that cycle. -/
lemma runCycle_noalert_of_mem (t e : List IPv4Network)
    (sink : String → Except String Unit) (mem : Finset String)
    (conns : List Conn) (K : String) (hK : K ∈ mem) :
    ∀ a ∈ (runCycle t e sink mem conns).2, alertKey a ≠ K := by
  intro a ha hkK
  rcases foldl_alert_src t e sink conns (mem, []) a ha with h | ⟨hk, _⟩
  · exact absurd h (List.not_mem_nil a)
  · exact hk (by simpa [hkK] using hK)

/-- A key in memory that is observed again this cycle survives the cycle. -/
lemma runCycle_mem_persist (t e : List IPv4Network)
    (sink : String → Except String Unit) (mem : Finset String)
    (conns : List Conn) (K : String) (hK : K ∈ mem)
    (hobs : K ∈ activeSet conns) : K ∈ (runCycle t e sink mem conns).1 :=
  Finset.mem_inter.mpr ⟨foldl_mem_mono t e sink conns (mem, []) hK, hobs⟩

/-- The key of every alert emitted in a cycle is in the memory the cycle
leaves behind. -/
lemma runCycle_alert_in_mem (t e : List IPv4Network)
    (sink : String → Except String Unit) (mem : Finset String)
    (conns : List Conn) (a : Alert)
    (ha : a ∈ (runCycle t e sink mem conns).2) :
    alertKey a ∈ (runCycle t e sink mem conns).1 := by
  have hmem : alertKey a ∈ (conns.foldl (processConn t e sink) (mem, [])).1 := by
    rcases foldl_alert_in_mem t e sink conns (mem, []) a ha with h | h
    · exact absurd h (List.not_mem_nil a)
    · exact h
  have hobs : alertKey a ∈ activeSet conns := by
    rcases foldl_alert_src t e sink conns (mem, []) a ha with h | ⟨_, _, _, c, hc, hst, hr⟩
    · exact absurd h (List.not_mem_nil a)
    · exact (activeSet_mem_iff conns _).mpr ⟨c, hc, hst, ⟨a.remoteIp, a.remotePort⟩, hr, rfl⟩
  exact Finset.mem_inter.mpr ⟨hmem, hobs⟩

/-- Membership in the end-of-cycle memory, relative to the start-of-cycle
memory: exactly the keys that were already remembered or were alerted this
cycle, and that belong to an established connection observed this cycle. -/
lemma runCycle_mem_iff (t e : List IPv4Network)
    (sink : String → Except String Unit) (mem : Finset String)
    (conns : List Conn) (K : String) :
    K ∈ (runCycle t e sink mem conns).1 ↔
      (K ∈ mem ∨ ∃ a ∈ (runCycle t e sink mem conns).2, alertKey a = K) ∧
      K ∈ activeSet conns := by
  constructor
  · intro h
    rcases Finset.mem_inter.mp h with ⟨hf, hobs⟩
    refine ⟨?_, hobs⟩
    rcases foldl_mem_src t e sink conns (mem, []) K hf with h | h
    · exact Or.inl h
    · exact Or.inr h
  · rintro ⟨hsrc, hobs⟩
    rcases hsrc with h | ⟨a, ha, rfl⟩
    · exact runCycle_mem_persist t e sink mem conns K h hobs
    · exact runCycle_alert_in_mem t e sink mem conns a ha

/-! ### Multi-cycle (trace) lemmas -/

lemma memBefore_zero (t e : List IPv4Network) (sink : String → Except String Unit)
    (mem : Finset String) (cs : List (List Conn)) :
    memBefore t e sink mem cs 0 = mem := by
  cases cs <;> rfl

lemma getD_drop {α : Type} (d : α) :
    ∀ (cs : List α) (k j : Nat), (cs.drop k).getD j d = cs.getD (k + j) d
  | _, 0, _ => by simp
  | [], _ + 1, _ => by simp
  | _ :: rest, k + 1, j => by
    rw [List.drop_succ_cons, getD_drop d rest k j]
    simp [Nat.succ_add]

lemma memBefore_add (t e : List IPv4Network) (sink : String → Except String Unit) :
    ∀ (k : Nat) (cs : List (List Conn)) (mem : Finset String) (d : Nat),
      memBefore t e sink mem cs (k + d) =
        memBefore t e sink (memBefore t e sink mem cs k) (cs.drop k) d
  | 0, cs, mem, d => by simp [memBefore]
  | k + 1, [], mem, d => by
    cases d <;> simp [memBefore]
  | k + 1, c :: rest, mem, d => by
    rw [Nat.succ_add]
    show memBefore t e sink (runCycle t e sink mem c).1 rest (k + d) = _
    rw [memBefore_add t e sink k rest (runCycle t e sink mem c).1 d]
    rfl

lemma alertsAt_add (t e : List IPv4Network) (sink : String → Except String Unit) :
    ∀ (k : Nat) (cs : List (List Conn)) (mem : Finset String) (d : Nat),
      alertsAt t e sink mem cs (k + d) =
        alertsAt t e sink (memBefore t e sink mem cs k) (cs.drop k) d
  | 0, cs, mem, d => by simp [memBefore]
  | k + 1, [], mem, d => by simp [memBefore, alertsAt]
  | k + 1, c :: rest, mem, d => by
    rw [Nat.succ_add]
    show alertsAt t e sink (runCycle t e sink mem c).1 rest (k + d) = _
    rw [alertsAt_add t e sink k rest (runCycle t e sink mem c).1 d]
    rfl

/-- A remembered key that stays observed through the first `n` cycles is
still remembered at the start of cycle `n`. -/
lemma memBefore_persist (t e : List IPv4Network) (sink : String → Except String Unit)
    (K : String) :
    ∀ (cs : List (List Conn)) (n : Nat) (mem : Finset String),
      K ∈ mem → (∀ j, j < n → K ∈ activeSet (cs.getD j [])) →
      K ∈ memBefore t e sink mem cs n
  | cs, 0, mem, hK, _ => by rw [memBefore_zero]; exact hK
  | [], _ + 1, _, hK, _ => hK
  | c :: rest, n + 1, mem, hK, hobs => by
    show K ∈ memBefore t e sink (runCycle t e sink mem c).1 rest n
    refine memBefore_persist t e sink K rest n _ ?_ ?_
    · exact runCycle_mem_persist t e sink mem c K hK (hobs 0 (Nat.succ_pos n))
    · intro j hj
      exact hobs (j + 1) (Nat.succ_lt_succ hj)

/-- A key alerted during cycle `i` is in the memory at the start of cycle
`i + 1`. -/
lemma memBefore_of_alert (t e : List IPv4Network) (sink : String → Except String Unit)
    (K : String) :
    ∀ (cs : List (List Conn)) (i : Nat) (mem : Finset String),
      (∃ a ∈ alertsAt t e sink mem cs i, alertKey a = K) →
      K ∈ memBefore t e sink mem cs (i + 1)
  | [], i, mem, h => by
    rcases h with ⟨a, ha, _⟩
    exact absurd ha (by simp [alertsAt])
  | c :: rest, 0, mem, h => by
    rcases h with ⟨a, ha, hk⟩
    show K ∈ memBefore t e sink (runCycle t e sink mem c).1 rest 0
    rw [memBefore_zero]
    exact hk ▸ runCycle_alert_in_mem t e sink mem c a ha
  | c :: rest, i + 1, mem, h =>
    memBefore_of_alert t e sink K rest i (runCycle t e sink mem c).1 h

/-- A key remembered at the start of cycle `m` is not alerted during cycle
`m`. -/
lemma noalert_of_memBefore (t e : List IPv4Network) (sink : String → Except String Unit)
    (K : String) :
    ∀ (cs : List (List Conn)) (m : Nat) (mem : Finset String),
      K ∈ memBefore t e sink mem cs m →
      ∀ a ∈ alertsAt t e sink mem cs m, alertKey a ≠ K
  | [], _, _, _ => by simp [alertsAt]
  | c :: _, 0, mem, hK => runCycle_noalert_of_mem t e sink mem c K hK
  | c :: rest, m + 1, mem, hK =>
    noalert_of_memBefore t e sink K rest m (runCycle t e sink mem c).1 hK

/-! ### Claim theorems -/

/-- C9: end-of-cycle reconciliation is idempotent: for every alert-memory
state `M` and every observed key set `S`, applying the reconciliation
(intersection with `S`) twice yields the same memory as applying it once. -/
theorem reconcile_idempotent (M S : Finset String) :
    reconcile (reconcile M S) S = reconcile M S := by
  simp [reconcile, Finset.inter_assoc]

/-- C3: at the end of every cycle the alert memory is exactly the
intersection of its prior contents (the start-of-cycle memory plus the keys
alerted during the cycle) with the endpoint keys of all established
connections observed in the cycle's sample — excluded and non-targeted ones
included — so a key absent from the sample is forgotten immediately. -/
theorem reconciliation_is_intersection (target exclude : List IPv4Network)
    (sink : String → Except String Unit) (mem : Finset String)
    (conns : List Conn) (K : String) :
    K ∈ (runCycle target exclude sink mem conns).1 ↔
      (K ∈ mem ∨ ∃ a ∈ (runCycle target exclude sink mem conns).2, alertKey a = K) ∧
      ∃ c ∈ conns, c.status = CONN_ESTABLISHED ∧
        ∃ r, c.raddr = some r ∧ mkConnId r.ip r.port = K := by
  rw [runCycle_mem_iff, activeSet_mem_iff]

/-- C1: a remote address that is a member of at least one exclude range is
never classified `Targeted` (regardless of target-range membership, which is
arbitrary here), and no cycle ever emits an alert whose remote address is
that address. -/
theorem excluded_never_targeted_never_alerted
    (target exclude : List IPv4Network) (ipStr : String) (ip : Nat)
    (sink : String → Except String Unit) (mem : Finset String) (conns : List Conn)
    (hparse : parseIPv4Address ipStr = some ip)
    (hmem : ∃ r ∈ exclude, ipInNetwork ip r = true) :
    isTargeted (classify target exclude ipStr) = false ∧
    ∀ a ∈ (runCycle target exclude sink mem conns).2, a.remoteIp ≠ ipStr := by
  have hfind : (exclude.find? fun r => ipInNetwork ip r).isSome := by
    rcases hmem with ⟨r, hr, hin⟩
    exact List.find?_isSome.mpr ⟨r, hr, hin⟩
  obtain ⟨r', hr'⟩ := Option.isSome_iff_exists.mp hfind
  have hexc : (is_excluded_ip exclude ipStr).1 = true := by
    unfold is_excluded_ip
    rw [hparse]
    dsimp only
    rw [hr']
  constructor
  · simp [classify, hexc, isTargeted]
  · intro a ha hip
    rcases foldl_alert_src target exclude sink conns (mem, []) a ha with
      h | ⟨_, hnexc, _⟩
    · exact absurd h (List.not_mem_nil a)
    · rw [hip, hexc] at hnexc
      exact Bool.noConfusion hnexc

/-- Witness for C1: `10.0.0.1` is excluded by `10.0.0.1/32`, is not
classified `Targeted` even though it sits inside the target range
`10.0.0.0/8`, and a cycle observing a connection to it emits no alert
naming it. -/
theorem excluded_never_targeted_never_alerted_witness :
    parseIPv4Address "10.0.0.1" = some 167772161 ∧
    (∃ r ∈ exc10, ipInNetwork 167772161 r = true) ∧
    isTargeted (classify tgt10 exc10 "10.0.0.1") = false ∧
    ∀ a ∈ (runCycle tgt10 exc10 okSink ∅ [connExcl]).2, a.remoteIp ≠ "10.0.0.1" := by
  have h := excluded_never_targeted_never_alerted tgt10 exc10 "10.0.0.1" 167772161
    okSink ∅ [connExcl] (by decide) (by decide)
  exact ⟨by decide, by decide, h.1, h.2⟩

/-- C10: a remote address string that is not a syntactically valid IP address
makes `is_target_ip` and `is_excluded_ip` return `(False, None)` instead of
raising (both functions are total here, mirroring the source's
`try/except`), so the connection is classified `Ignored` and no alert naming
that address is ever emitted in a cycle. -/
theorem invalid_ip_never_alerted (target exclude : List IPv4Network)
    (ipStr : String) (sink : String → Except String Unit)
    (mem : Finset String) (conns : List Conn)
    (hparse : parseIPv4Address ipStr = none) :
    is_target_ip target ipStr = (false, none) ∧
    is_excluded_ip exclude ipStr = (false, none) ∧
    classify target exclude ipStr = Classification.Ignored ∧
    ∀ a ∈ (runCycle target exclude sink mem conns).2, a.remoteIp ≠ ipStr := by
  have h1 : is_target_ip target ipStr = (false, none) := by
    unfold is_target_ip; rw [hparse]
  have h2 : is_excluded_ip exclude ipStr = (false, none) := by
    unfold is_excluded_ip; rw [hparse]
  refine ⟨h1, h2, by simp [classify, h1, h2], ?_⟩
  intro a ha hip
  rcases foldl_alert_src target exclude sink conns (mem, []) a ha with
    h | ⟨_, _, htgt, _⟩
  · exact absurd h (List.not_mem_nil a)
  · rw [hip, h1] at htgt
    exact Bool.false_ne_true htgt

/-- Witness for C10: `"999.1.1.1"` does not parse, both membership tests
return `(False, None)`, the classification is `Ignored`, and a cycle
observing a connection to it emits no alert naming it. -/
theorem invalid_ip_never_alerted_witness :
    parseIPv4Address "999.1.1.1" = none ∧
    is_target_ip tgt10 "999.1.1.1" = (false, none) ∧
    is_excluded_ip exc10 "999.1.1.1" = (false, none) ∧
    classify tgt10 exc10 "999.1.1.1" = Classification.Ignored ∧
    ∀ a ∈ (runCycle tgt10 exc10 okSink ∅ [connBad]).2, a.remoteIp ≠ "999.1.1.1" := by
  have h := invalid_ip_never_alerted tgt10 exc10 "999.1.1.1" okSink ∅ [connBad]
    (by decide)
  exact ⟨by decide, h.1, h.2.1, h.2.2.1, h.2.2.2⟩

/-- C8: in a comma-separated range list, every entry is parsed independently:
a malformed entry is skipped (with a warning) without aborting the parse,
every remaining valid entry is kept in order, and removing the malformed
entry changes neither the parsed list nor the membership answer for any
address (no widening or narrowing of adjacent valid ranges).  The claim's
own example `"999.1.1.1/33"` is indeed rejected. -/
theorem malformed_entry_skipped_independently (pre post : List String) (bad : String)
    (hbad : parseEntry bad = none) :
    parseEntries (pre ++ bad :: post) = parseEntries pre ++ parseEntries post ∧
    parseEntries (pre ++ bad :: post) = parseEntries (pre ++ post) ∧
    (∀ ip : Nat,
      ((parseEntries (pre ++ bad :: post)).any fun r => ipInNetwork ip r) =
      ((parseEntries (pre ++ post)).any fun r => ipInNetwork ip r)) ∧
    parseEntry "999.1.1.1/33" = none := by
  have h : parseEntries (pre ++ bad :: post) = parseEntries pre ++ parseEntries post := by
    simp [parseEntries, List.filterMap_append, List.filterMap_cons, hbad]
  have h2 : parseEntries (pre ++ post) = parseEntries pre ++ parseEntries post := by
    simp [parseEntries, List.filterMap_append]
  exact ⟨h, by rw [h, h2], fun ip => by rw [h, h2], by decide⟩

/-- Witness for C8: dropping the malformed middle entry `"999.1.1.1/33"`
from `["10.0.0.0/8", "999.1.1.1/33", "192.168.0.0/16"]` keeps both valid
ranges and leaves the membership answer for `192.168.1.5` unchanged. -/
theorem malformed_entry_skipped_independently_witness :
    parseEntry "999.1.1.1/33" = none ∧
    parseEntries (["10.0.0.0/8"] ++ "999.1.1.1/33" :: ["192.168.0.0/16"]) =
      parseEntries ["10.0.0.0/8"] ++ parseEntries ["192.168.0.0/16"] ∧
    ((parseEntries (["10.0.0.0/8"] ++ "999.1.1.1/33" :: ["192.168.0.0/16"])).any
        fun r => ipInNetwork 3232235781 r) =
      ((parseEntries (["10.0.0.0/8"] ++ ["192.168.0.0/16"])).any
        fun r => ipInNetwork 3232235781 r) := by
  have h := malformed_entry_skipped_independently ["10.0.0.0/8"] ["192.168.0.0/16"]
    "999.1.1.1/33" (by decide)
  exact ⟨by decide, h.1, h.2.2.1 3232235781⟩

/-- C5 (code bug): with `TARGET_IP_RANGES` absent, the literal default is
`"10.10.0.0/8,172.16.0.0/12,192.168.0.0/16"`.  Its first entry fails strict
CIDR parsing (`10.10.0.0/8` has host bits set) and is dropped with a warning,
so the parsed default target set is only `{172.16.0.0/12, 192.168.0.0/16}`:
addresses of the private block `10.0.0.0/8` — e.g. `10.0.0.1` — are NOT
members, contradicting the claim that the default covers all three private
blocks.  (The intended entry is evidently `10.0.0.0/8`, which does parse.) -/
theorem default_target_ranges_eval :
    ip_network "10.10.0.0/8" = none ∧
    ip_network "10.0.0.0/8" = some ⟨167772160, 8⟩ ∧
    parseRangeList DEFAULT_TARGET_RANGES = [⟨2886729728, 12⟩, ⟨3232235520, 16⟩] ∧
    (is_target_ip (parseRangeList DEFAULT_TARGET_RANGES) "10.0.0.1").1 = false ∧
    (is_target_ip (parseRangeList DEFAULT_TARGET_RANGES) "10.255.255.254").1 = false ∧
    (is_target_ip (parseRangeList DEFAULT_TARGET_RANGES) "172.16.0.1").1 = true ∧
    (is_target_ip (parseRangeList DEFAULT_TARGET_RANGES) "192.168.1.2").1 = true := by
  decide

/-- C6: when the target range set is empty after parsing, startup fails with
the non-zero process exit code 1 (`exit(1)` in `__init__`), and the
monitoring loop never starts: `startMonitor` returns `Except.error` without
ever invoking `runLoop`. -/
theorem empty_target_ranges_exit (s : String) (envExclude : Option String)
    (sink : String → Except String Unit)
    (cycles : List (Except String (List Conn)))
    (h : parseRangeList s = []) :
    ∃ code, startMonitor (some s) envExclude sink cycles = Except.error code ∧
      code ≠ 0 := by
  refine ⟨1, ?_, one_ne_zero⟩
  unfold startMonitor initTargets
  simp [h]

/-- Witness for C6: the list `"999.1.1.1/33"` loses its only (malformed)
entry, so startup exits with code 1 and the loop never runs. -/
theorem empty_target_ranges_exit_witness :
    parseRangeList "999.1.1.1/33" = [] ∧
    ∃ code, startMonitor (some "999.1.1.1/33") none okSink [] = Except.error code ∧
      code ≠ 0 :=
  ⟨by decide, empty_target_ranges_exit "999.1.1.1/33" none okSink [] (by decide)⟩

/-- C4 is false on the code (see `sampling_error_stops_loop_cex`): the `try`
block wraps the whole `while True` loop, so a sampler failure propagates out
of the loop and is caught by the outer `except Exception`.  Amended claim:
the failure is logged and the monitoring loop *terminates* (fail-stop) with
the memory unchanged; no later cycle is processed. -/
theorem sampling_error_fail_stop (target exclude : List IPv4Network)
    (sink : String → Except String Unit) (mem : Finset String) (msg : String)
    (rest : List (Except String (List Conn))) :
    runLoop target exclude sink mem (Except.error msg :: rest) = (mem, []) :=
  rfl

/-- Counterexample for C4 as stated: after a sampling failure in the first
cycle, the subsequent good cycle is never processed (no alert list at all is
produced for it), although that same cycle run on its own does alert. -/
theorem sampling_error_stops_loop_cex :
    (runLoop tgt10 exc10 okSink ∅
        [Except.error "sampling failed", Except.ok [connA]]).2 = [] ∧
    (runLoop tgt10 exc10 okSink ∅ [Except.ok [connA]]).2 = [[alertA]] := by
  decide

/-- C7: a notification-sink failure is swallowed by `send_notification`
(logged, never re-raised), so the cycle's outcome — memory and alert events —
is identical under any two sink behaviours (the loop is not aborted); the
alerted key is still recorded in the end-of-cycle memory; and no alert with
that key can be emitted in the immediately following cycle (no duplicate
while the key remains remembered). -/
theorem sink_failure_nonfatal (target exclude : List IPv4Network)
    (sink sink' : String → Except String Unit)
    (mem : Finset String) (conns : List Conn) :
    runCycle target exclude sink mem conns = runCycle target exclude sink' mem conns ∧
    (∀ a ∈ (runCycle target exclude sink mem conns).2,
        alertKey a ∈ (runCycle target exclude sink mem conns).1) ∧
    (∀ a ∈ (runCycle target exclude sink mem conns).2, ∀ (conns₂ : List Conn),
        ∀ b ∈ (runCycle target exclude sink
                  (runCycle target exclude sink mem conns).1 conns₂).2,
          alertKey b ≠ alertKey a) := by
  refine ⟨rfl, fun a ha => runCycle_alert_in_mem target exclude sink mem conns a ha,
    fun a ha conns₂ b hb => ?_⟩
  exact runCycle_noalert_of_mem target exclude sink
    (runCycle target exclude sink mem conns).1 conns₂ (alertKey a)
    (runCycle_alert_in_mem target exclude sink mem conns a ha) b hb

/-- Witness for C7: with a sink that always raises, the cycle over `connA`
produces the same memory and alert event as with a succeeding sink, the
alert fires, and its key `"10.0.0.2:443"` is recorded in memory. -/
theorem sink_failure_nonfatal_witness :
    runCycle tgt10 exc10 failSink ∅ [connA] = runCycle tgt10 exc10 okSink ∅ [connA] ∧
    alertA ∈ (runCycle tgt10 exc10 failSink ∅ [connA]).2 ∧
    alertKey alertA ∈ (runCycle tgt10 exc10 failSink ∅ [connA]).1 := by
  have h := sink_failure_nonfatal tgt10 exc10 failSink okSink ∅ [connA]
  have ha : alertA ∈ (runCycle tgt10 exc10 failSink ∅ [connA]).2 := by decide
  exact ⟨h.1, ha, h.2.1 alertA ha⟩

/-- C2: once an alert fires for an endpoint key `K` at cycle `i`, no second
alert fires for `K` at any later cycle `m` through which `K` has remained
present in the observed set of established connections; and if a second
alert does fire for `K` at cycle `m`, then `K` was absent from the observed
set of some intermediate cycle. -/
theorem alert_once_per_presence_episode (target exclude : List IPv4Network)
    (sink : String → Except String Unit) (mem : Finset String)
    (cs : List (List Conn)) (i m : Nat) (K : String)
    (him : i < m)
    (hfire : ∃ a ∈ alertsAt target exclude sink mem cs i, alertKey a = K) :
    ((∀ j, i < j → j ≤ m → K ∈ activeSet (cs.getD j [])) →
        ∀ a ∈ alertsAt target exclude sink mem cs m, alertKey a ≠ K) ∧
    ((∃ a ∈ alertsAt target exclude sink mem cs m, alertKey a = K) →
        ∃ j, i < j ∧ j ≤ m ∧ K ∉ activeSet (cs.getD j [])) := by
  have hpart1 : (∀ j, i < j → j ≤ m → K ∈ activeSet (cs.getD j [])) →
      ∀ a ∈ alertsAt target exclude sink mem cs m, alertKey a ≠ K := by
    intro hpres
    have h1 : K ∈ memBefore target exclude sink mem cs (i + 1) :=
      memBefore_of_alert target exclude sink K cs i mem hfire
    have hm : m = (i + 1) + (m - (i + 1)) := by omega
    have h2 : K ∈ memBefore target exclude sink mem cs m := by
      rw [hm, memBefore_add]
      refine memBefore_persist target exclude sink K _ _ _ h1 ?_
      intro j hj
      rw [getD_drop]
      exact hpres (i + 1 + j) (by omega) (by omega)
    exact noalert_of_memBefore target exclude sink K cs m mem h2
  refine ⟨hpart1, fun hfire2 => ?_⟩
  by_contra hno
  push_neg at hno
  rcases hfire2 with ⟨a, ha, hk⟩
  exact hpart1 hno a ha hk

/-- Witness for C2: with target `192.168.0.0/16` and two cycles both
observing `192.168.1.5:22`, the key alerts in cycle 0 and, being present in
cycle 1's observed set, is not alerted again in cycle 1. -/
theorem alert_once_per_presence_episode_witness :
    (0 : Nat) < 1 ∧
    (∃ a ∈ alertsAt tgt192 [] okSink ∅ [[connB], [connB]] 0,
      alertKey a = "192.168.1.5:22") ∧
    ∀ a ∈ alertsAt tgt192 [] okSink ∅ [[connB], [connB]] 1,
      alertKey a ≠ "192.168.1.5:22" := by
  have h := alert_once_per_presence_episode tgt192 [] okSink ∅ [[connB], [connB]]
    0 1 "192.168.1.5:22" (by decide) (by decide)
  refine ⟨by decide, by decide, h.1 ?_⟩
  intro j h1 h2
  have hj : j = 1 := by omega
  subst hj
  decide

end Bepa
